import Mathlib

/-!
Shallow embedding of `snarkOS` `node/narwhal/examples/simple_node.rs` and the
parts of its configuration/startup surface that the claims address.

The example file wires together library components (`Account`, `Committee`,
`Storage`, `Primary`, `BFT`) whose sources are not part of this repository
snapshot; those are modelled from the specification (see the doc comments
starting with `Modelled from the spec:`).  Everything else is translated
directly from `simple_node.rs`.
-/

namespace SimpleNode

/-- A socket address, as produced by parsing `ip:port` strings.  The wire
format internals are external; only equality of addresses matters here. -/
structure SocketAddr where
  host : String
  port : Nat
deriving DecidableEq, Repr

/-- Modelled from the spec: an `Account` is a validator identity sampled
deterministically from a seeded RNG (`Account::new(&mut ChaChaRng::seed_from_u64(s))`).
Key management is external (§1); the toolkit account tests show the
seed → private key → address derivation is deterministic, so the model keeps
the seed as the identity. -/
structure Account where
  seed : Nat
deriving DecidableEq, Repr

/-- Modelled from the spec: `Account::new` samples an account from the given
seeded RNG; the derivation is deterministic in the seed and sampling succeeds
(the spec gives no failure condition for key sampling). -/
def Account.new (seed : Nat) : Except String Account := Except.ok ⟨seed⟩

/-- Modelled from the spec: the address of an account, a deterministic
function of the account; distinct seeds yield distinct addresses (the
cryptographic derivation is injective for the seeds in use). -/
def Account.address (a : Account) : Nat := a.seed

/-- `IndexMap::insert`: replace in place when the key is present, else append
at the end (insertion order preserved). -/
def indexMapInsert (m : List (Nat × Nat)) (k v : Nat) : List (Nat × Nat) :=
  if m.any (fun p => p.1 == k) then
    m.map (fun p => if p.1 == k then (k, v) else p)
  else m ++ [(k, v)]

/-- Modelled from the spec (§3): a committee is
`{ id, members : ordered-mapping(address → stake), total_stake }` with
`total_stake = sum(stake)`; we keep `id` and the ordered member list and
compute the total. -/
structure Committee where
  id : Nat
  members : List (Nat × Nat)
deriving DecidableEq, Repr

/-- The committee's total stake: the sum of all member stakes (§3 invariant). -/
def Committee.totalStake (c : Committee) : Nat :=
  (c.members.map Prod.snd).sum

/-- Modelled from the spec (§4.1, §7): `Committee::new(id, members)` is a
fatal configuration error on duplicate members or zero total stake, and
otherwise constructs the committee. -/
def Committee.new (id : Nat) (members : List (Nat × Nat)) : Except String Committee :=
  if (members.map Prod.fst).Nodup then
    if (members.map Prod.snd).sum = 0 then
      Except.error "Committee must have nonzero total stake"
    else Except.ok ⟨id, members⟩
  else Except.error "Committee must not have duplicate members"

/-- Modelled from the spec (§3, §6): the fields of `Storage` the claims
inspect — the committee snapshot it was constructed from, the
garbage-collection window, and the per-round certificate index backing
`get_certificates_for_round` (certificates abstracted to identifiers). -/
structure Storage where
  committee : Committee
  maxGcRounds : Nat
  certs : List (Nat × List Nat)
deriving DecidableEq, Repr

/-- Modelled from the spec: `Storage::new(committee, max_gc_rounds)` records
the committee snapshot and the GC window; the DAG starts empty. -/
def Storage.new (c : Committee) (gc : Nat) : Storage := ⟨c, gc, []⟩

/-- Modelled from the spec (§4.3): `get_certificates_for_round` is a
read-only snapshot of the certificates stored at the given round. -/
def Storage.get_certificates_for_round (s : Storage) (round : Nat) : List Nat :=
  match s.certs.find? (fun p => p.1 == round) with
  | some p => p.2
  | none => []

/-- Modelled from the spec: the crate constant `MAX_GC_ROUNDS` imported by
the example from `snarkos_node_narwhal` (the GC window size, a fixed
constant of the program). -/
def MAX_GC_ROUNDS : Nat := 50

/-- Modelled from the spec: the crate constant `MEMORY_POOL_PORT` imported
by the example (base port for the default per-index gateway addresses). -/
def MEMORY_POOL_PORT : Nat := 5000

/-- The committee-member loop of `initialize_components`: for `i` in
`0..num_nodes`, sample the account from seed `i` and insert
`(address ↦ 1000)` into the `IndexMap`.  The account constructor is a
parameter so that error propagation can be stated for arbitrary failures. -/
def buildMembersWith (accountNew : Nat → Except String Account) (num_nodes : Nat) :
    Except String (List (Nat × Nat)) :=
  (List.range num_nodes).foldlM
    (fun m i =>
      match accountNew i with
      | Except.error e => Except.error e
      | Except.ok acct => Except.ok (indexMapInsert m acct.address 1000))
    []

/-- `initialize_components(node_id, num_nodes)` translated from
`simple_node.rs:164-190`, with the external `Account::new` and
`Committee::new` constructors abstracted as parameters:
`ensure!(node_id < num_nodes)`, sample this node's account from seed
`node_id`, build the member map with stake 1000 each, construct the
committee with id `1`, and construct the storage with GC window
`MAX_GC_ROUNDS`. -/
def initialize_componentsWith (accountNew : Nat → Except String Account)
    (committeeNew : Nat → List (Nat × Nat) → Except String Committee)
    (node_id num_nodes : Nat) : Except String (Storage × Account) :=
  if node_id < num_nodes then
    match accountNew node_id with
    | Except.error e => Except.error e
    | Except.ok account =>
      match buildMembersWith accountNew num_nodes with
      | Except.error e => Except.error e
      | Except.ok members =>
        match committeeNew 1 members with
        | Except.error e => Except.error e
        | Except.ok committee =>
          Except.ok (Storage.new committee MAX_GC_ROUNDS, account)
  else
    Except.error ("Node ID " ++ toString node_id ++ " must be less than " ++ toString num_nodes)

/-- `initialize_components` with the modelled library constructors. -/
def initialize_components (node_id num_nodes : Nat) : Except String (Storage × Account) :=
  initialize_componentsWith Account.new Committee.new node_id num_nodes

/-- `peers.get(&i)` on the peers map (a `HashMap<u16, SocketAddr>`, modelled
as an association list with unique keys). -/
def peersGet (peers : List (Nat × SocketAddr)) (i : Nat) : Option SocketAddr :=
  match peers.find? (fun p => p.1 == i) with
  | some p => some p.2
  | none => none

/-- Modelled from the spec (§3, §4.4): the fields of `Primary` the claims
inspect — its account, its storage, the round counter it owns
(`current_round`, starting at the initial round 1), and the gateway
ip/dev-mode pair it was constructed with. -/
structure Primary where
  account : Account
  storage : Storage
  currentRound : Nat
  ip : Option SocketAddr
  dev : Option Nat
deriving DecidableEq, Repr

/-- Modelled from the spec: `Primary::new(account, storage, ledger, ip, dev)`
wires the components together (the mock ledger carries no state the claims
inspect); the spec gives no failure condition beyond component construction. -/
def Primary.new (account : Account) (storage : Storage)
    (ip : Option SocketAddr) (dev : Option Nat) : Primary :=
  ⟨account, storage, 1, ip, dev⟩

/-- `primary.current_round()`: read accessor for the round counter. -/
def Primary.current_round (p : Primary) : Nat := p.currentRound

/-- `primary.storage()`: read accessor for the storage. -/
def Primary.storageOf (p : Primary) : Storage := p.storage

/-- Modelled from the spec (§4.5, §6): the fields of `BFT` the claims
inspect — its primary, and the leader-of-previous-round value returned by
`bft.leader()` (none before any leader round has completed). -/
structure BFT where
  primary : Primary
  leader : Option Nat
deriving DecidableEq, Repr

/-- Modelled from the spec: `BFT::new(account, storage, ledger, ip, dev)`
builds the BFT layer on top of a primary; no leader has been elected yet. -/
def BFT.new (account : Account) (storage : Storage)
    (ip : Option SocketAddr) (dev : Option Nat) : BFT :=
  ⟨Primary.new account storage ip dev, none⟩

/-- `start_bft(node_id, num_nodes, peers)` translated from
`simple_node.rs:100-130` (startup phase): initialize the components,
resolve the gateway ip / dev mode from the peers map, and construct the
BFT instance.  Channel plumbing, `bft.run`, and the spawned background
tasks carry no startup failure modes in the spec and are modelled by the
trace/iteration functions below. -/
def start_bftWith (accountNew : Nat → Except String Account)
    (committeeNew : Nat → List (Nat × Nat) → Except String Committee)
    (node_id num_nodes : Nat) (peers : List (Nat × SocketAddr)) :
    Except String BFT :=
  match initialize_componentsWith accountNew committeeNew node_id num_nodes with
  | Except.error e => Except.error e
  | Except.ok (storage, account) =>
    match peersGet peers node_id with
    | some ip => Except.ok (BFT.new account storage (some ip) none)
    | none => Except.ok (BFT.new account storage none (some node_id))

/-- `start_primary(node_id, num_nodes, peers)` translated from
`simple_node.rs:133-161` (startup phase), analogous to `start_bftWith`. -/
def start_primaryWith (accountNew : Nat → Except String Account)
    (committeeNew : Nat → List (Nat × Nat) → Except String Committee)
    (node_id num_nodes : Nat) (peers : List (Nat × SocketAddr)) :
    Except String Primary :=
  match initialize_componentsWith accountNew committeeNew node_id num_nodes with
  | Except.error e => Except.error e
  | Except.ok (storage, account) =>
    match peersGet peers node_id with
    | some ip => Except.ok (Primary.new account storage (some ip) none)
    | none => Except.ok (Primary.new account storage none (some node_id))

/-- `start_bft` with the modelled library constructors. -/
def start_bft (node_id num_nodes : Nat) (peers : List (Nat × SocketAddr)) :
    Except String BFT :=
  start_bftWith Account.new Committee.new node_id num_nodes peers

/-- `start_primary` with the modelled library constructors. -/
def start_primary (node_id num_nodes : Nat) (peers : List (Nat × SocketAddr)) :
    Except String Primary :=
  start_primaryWith Account.new Committee.new node_id num_nodes peers

/-! ## The monitoring server and its handlers -/

/-- The `NodeState` passed to the axum router (`simple_node.rs:351-355`):
an optional BFT instance and the primary. -/
structure NodeState where
  bft : Option BFT
  primary : Primary
deriving DecidableEq, Repr

/-- The JSON-serialisable responses of the three inspection handlers. -/
inductive Resp
  | leaderResp (x : Option Nat)
  | roundResp (r : Nat)
  | certsResp (cs : List Nat)
deriving DecidableEq, Repr

/-- `get_leader` (`simple_node.rs:358-363`): returns the leader of the
previous round if the BFT is enabled, else a `RestError`.  Handlers are
embedded as state-passing functions returning the (possibly updated) node
state alongside the response, so that their effect on the state is a
theorem rather than a typing convention. -/
def get_leader (node : NodeState) : Except String Resp × NodeState :=
  (match node.bft with
   | some bft => Except.ok (Resp.leaderResp bft.leader)
   | none => Except.error "BFT is not enabled",
   node)

/-- `get_current_round` (`simple_node.rs:366-368`): returns
`primary.current_round()`. -/
def get_current_round (node : NodeState) : Except String Resp × NodeState :=
  (Except.ok (Resp.roundResp node.primary.current_round), node)

/-- `get_certificates_for_round` (`simple_node.rs:371-376`): returns
`primary.storage().get_certificates_for_round(round)`. -/
def get_certificates_for_round (node : NodeState) (round : Nat) :
    Except String Resp × NodeState :=
  (Except.ok (Resp.certsResp (node.primary.storageOf.get_certificates_for_round round)),
   node)

/-! ## CLI surface and `main` -/

/-- The `Mode` CLI enum (`simple_node.rs:403-409`). -/
inductive Mode
  | Narwhal
  | Bft
deriving DecidableEq, Repr

/-- The `Args` CLI surface (`simple_node.rs:412-435`).  `config` holds the
contents of the committee-configuration file when the flag is given (file
reading is external); the cannon flags are `Option<Option<u64>>` exactly as
in the source.  Note there is no garbage-collection-window field. -/
structure Args where
  mode : Mode
  id : Nat
  num_nodes : Nat
  config : Option (List Char)
  fire_solutions : Option (Option Nat)
  fire_transactions : Option (Option Nat)
  fire_transmissions : Option (Option Nat)
deriving DecidableEq, Repr

/-- `char::split(sep)` on the character list of a string: non-inclusive
split, `[]` yields `[[]]` (Rust's `"".split(sep)` yields one empty item). -/
def splitOnChar (sep : Char) : List Char → List (List Char)
  | [] => [[]]
  | c :: rest =>
    if c = sep then [] :: splitOnChar sep rest
    else
      match splitOnChar sep rest with
      | [] => [[c]]
      | h :: t => (c :: h) :: t

/-- `str::split_inclusive(sep)`: each segment keeps its trailing separator;
the empty string yields no segments. -/
def splitInclusiveChar (sep : Char) : List Char → List (List Char)
  | [] => []
  | c :: rest =>
    if c = sep then [c] :: splitInclusiveChar sep rest
    else
      match splitInclusiveChar sep rest with
      | [] => [[c]]
      | h :: t => (c :: h) :: t

/-- The per-segment map of `str::lines`: strip one trailing `\n`, and when
one was stripped also one trailing `\r`. -/
def stripEol (l : List Char) : List Char :=
  match l.getLast? with
  | some c =>
    if c = '\n' then
      match l.dropLast.getLast? with
      | some c2 => if c2 = '\r' then l.dropLast.dropLast else l.dropLast
      | none => l.dropLast
    else l
  | none => l

/-- `str::lines`: split inclusively at `\n` and strip the line endings
(`\n` or `\r\n`); the final line ending is optional. -/
def rustLines (s : List Char) : List (List Char) :=
  (splitInclusiveChar '\n' s).map stripEol

/-- `u16::from_str`: an optional leading `+` sign, then one or more ASCII
digits, value below `2^16`; anything else is an error. -/
def parseU16 (s : List Char) : Option Nat :=
  let t := match s with
           | c :: rest => if c = '+' then rest else s
           | [] => s
  if t.isEmpty then none
  else if t.all (fun c => c.isDigit) then
    let n := t.foldl (fun acc c => acc * 10 + (c.toNat - 48)) 0
    if n < 65536 then some n else none
  else none

/-- The first two items of `peer.split('=')`: the text before the first `=`,
and — when an `=` is present — the text between the first and second `=`
(or the rest of the line if there is no second `=`). -/
def splitEqFirstTwo (s : List Char) : List Char × Option (List Char) :=
  match splitOnChar '=' s with
  | [] => ([], none)
  | [a] => (a, none)
  | a :: b :: _ => (a, some b)

/-- `HashMap::insert`: replace the value when the key is present, else add
the entry (the claims only inspect the key→value mapping). -/
def hashMapInsert (m : List (Nat × SocketAddr)) (k : Nat) (v : SocketAddr) :
    List (Nat × SocketAddr) :=
  if m.any (fun p => p.1 == k) then
    m.map (fun p => if p.1 == k then (k, v) else p)
  else m ++ [(k, v)]

/-- The body of `parse_peers`'s loop for one line: parse the id from the
text before the first `=` (`u16::from_str` with `?`), then require a second
`=`-segment (`ok_or(Bad Format)` with `?`), parse it as a socket address
(`SocketAddr::from_str` with `?`), and insert into the map.  The socket
address parser (external, `std`) is a parameter. -/
def parsePeerLine (parseAddr : List Char → Option SocketAddr)
    (peers : List (Nat × SocketAddr)) (line : List Char) :
    Except String (List (Nat × SocketAddr)) :=
  match parseU16 (splitEqFirstTwo line).1 with
  | none => Except.error "invalid digit found in string"
  | some node_id =>
    match (splitEqFirstTwo line).2 with
    | none => Except.error "Bad Format"
    | some addr =>
      match parseAddr addr with
      | none => Except.error "invalid socket address"
      | some ip => Except.ok (hashMapInsert peers node_id ip)

/-- The `for peer in peers_string.lines()` loop of `parse_peers`: run
`parsePeerLine` on each line in order, stopping at the first error. -/
def parsePeersLoop (parseAddr : List Char → Option SocketAddr)
    (peers : List (Nat × SocketAddr)) :
    List (List Char) → Except String (List (Nat × SocketAddr))
  | [] => Except.ok peers
  | line :: rest =>
    match parsePeerLine parseAddr peers line with
    | Except.error e => Except.error e
    | Except.ok peers2 => parsePeersLoop parseAddr peers2 rest

/-- `parse_peers(peers_string)` translated from `simple_node.rs:437-449`:
run the per-line loop over the lines of the input, starting from the empty
map. -/
def parse_peersWith (parseAddr : List Char → Option SocketAddr) (s : List Char) :
    Except String (List (Nat × SocketAddr)) :=
  parsePeersLoop parseAddr [] (rustLines s)

/-- The default interval for the cannons (`simple_node.rs:480`). -/
def DEFAULT_INTERVAL_MS : Nat := 450

/-- The solution/transaction cannon interval selection
(`simple_node.rs:483-501`), a pure function of the three CLI flags. -/
def cannonIntervals (ftx fs ft : Option (Option Nat)) : Option Nat × Option Nat :=
  match ftx, fs, ft with
  | some t, _, _ => (some (t.getD DEFAULT_INTERVAL_MS), some (t.getD DEFAULT_INTERVAL_MS))
  | none, some s, some t => (some (s.getD DEFAULT_INTERVAL_MS), some (t.getD DEFAULT_INTERVAL_MS))
  | none, some s, none => (some (s.getD DEFAULT_INTERVAL_MS), none)
  | none, none, some t => (none, some (t.getD DEFAULT_INTERVAL_MS))
  | none, none, none => (none, none)

/-- The mode dispatch of `main` (`simple_node.rs:464-478`): in `Bft` mode
start the BFT, hold it, and use its primary; in `Narwhal` mode start only
the primary and hold no BFT. -/
def mainStartupWith (accountNew : Nat → Except String Account)
    (committeeNew : Nat → List (Nat × Nat) → Except String Committee)
    (mode : Mode) (node_id num_nodes : Nat) (peers : List (Nat × SocketAddr)) :
    Except String NodeState :=
  match mode with
  | Mode.Bft =>
    match start_bftWith accountNew committeeNew node_id num_nodes peers with
    | Except.error e => Except.error e
    | Except.ok bft => Except.ok ⟨some bft, bft.primary⟩
  | Mode.Narwhal =>
    match start_primaryWith accountNew committeeNew node_id num_nodes peers with
    | Except.error e => Except.error e
    | Except.ok primary => Except.ok ⟨none, primary⟩

/-- `mainStartup` with the modelled library constructors. -/
def mainStartup (mode : Mode) (node_id num_nodes : Nat)
    (peers : List (Nat × SocketAddr)) : Except String NodeState :=
  mainStartupWith Account.new Committee.new mode node_id num_nodes peers

/-- The startup phase of `main` (`simple_node.rs:454-514`): parse the peers
from the configuration file contents when given, then start the node in
the requested mode.  The returned `NodeState` is exactly the state handed
to `start_server`; an error return means the program terminated at startup
before any component ran. -/
def fullMainWith (accountNew : Nat → Except String Account)
    (committeeNew : Nat → List (Nat × Nat) → Except String Committee)
    (parseAddr : List Char → Option SocketAddr) (args : Args) :
    Except String NodeState :=
  match (match args.config with
         | some contents => parse_peersWith parseAddr contents
         | none => Except.ok []) with
  | Except.error e => Except.error e
  | Except.ok peers =>
    mainStartupWith accountNew committeeNew args.mode args.id args.num_nodes peers

/-- `fullMain` with the modelled library constructors. -/
def fullMain (parseAddr : List Char → Option SocketAddr) (args : Args) :
    Except String NodeState :=
  fullMainWith Account.new Committee.new parseAddr args

/-! ## The connection-keeper task -/

/-- The gateway IP computed for index `i` inside `keep_connections`'s loop
(`simple_node.rs:202-205`): the peers-map entry when present, else
`127.0.0.1:(MEMORY_POOL_PORT + i)`. -/
def ipFor (peers : List (Nat × SocketAddr)) (i : Nat) : SocketAddr :=
  match peersGet peers i with
  | some ip => ip
  | none => ⟨"127.0.0.1", MEMORY_POOL_PORT + i⟩

/-- One pass of `keep_connections`'s inner `for` loop
(`simple_node.rs:200-212`): the `(index, address)` pairs on which
`gateway().connect(ip)` is called, given the connection predicate observed
at that moment.  `connect` is called exactly when `i != node_id` and
`!is_connected(ip)`. -/
def keepConnectionsPass (peers : List (Nat × SocketAddr)) (node_id num_nodes : Nat)
    (isConnected : SocketAddr → Bool) : List (Nat × SocketAddr) :=
  (List.range num_nodes).filterMap (fun i =>
    if i ≠ node_id ∧ isConnected (ipFor peers i) = false then some (i, ipFor peers i)
    else none)

/-- The connection-keeper loop runs one pass per iteration, indefinitely;
the connection predicate is indexed by the iteration number to capture
"at that moment". -/
def keepConnectionsIter (peers : List (Nat × SocketAddr)) (node_id num_nodes : Nat)
    (isConnectedAt : Nat → SocketAddr → Bool) (t : Nat) : List (Nat × SocketAddr) :=
  keepConnectionsPass peers node_id num_nodes (isConnectedAt t)

/-- The sleep between passes of the connection-keeper loop
(`simple_node.rs:213`), in seconds. -/
def keepConnectionsIntervalSecs : Nat := 30

/-! ## The traffic-generator (cannon) loops

Both `fire_unconfirmed_solutions` (`simple_node.rs:251-290`) and
`fire_unconfirmed_transactions` (`simple_node.rs:293-332`) run the same
loop: two ChaCha RNGs — one seeded with the shared constant `123456789`,
one seeded with the node's own id — and on counter value `k` the payload
is sampled from the shared RNG when `k` is even, from the unique RNG
otherwise.  The RNG is external (`rand_chacha`); it is embedded as an
abstract sampling step `sample : R → P × R` and a seeding function
`seedFrom : Nat → R`, with each call of the source's `sample` closure
consuming one step. -/

/-- The shared cannon seed (`simple_node.rs:255` and `:297`). -/
def sharedCannonSeed : Nat := 123456789

/-- The mutable state of one cannon loop: the two RNG states and the
counter. -/
structure GenState (R : Type) where
  sharedRng : R
  uniqueRng : R
  counter : Nat

/-- One iteration of the cannon loop body, returning the sampled payload
and the updated state: sample from the shared RNG when the counter is
even, from the unique RNG otherwise, then increment the counter. -/
def genStep {R P : Type} (sample : R → P × R) (s : GenState R) :
    P × GenState R :=
  if s.counter % 2 = 0 then
    ((sample s.sharedRng).1, ⟨(sample s.sharedRng).2, s.uniqueRng, s.counter + 1⟩)
  else
    ((sample s.uniqueRng).1, ⟨s.sharedRng, (sample s.uniqueRng).2, s.counter + 1⟩)

/-- The initial cannon state for a node (`simple_node.rs:254-257`): shared
RNG seeded with `123456789`, unique RNG seeded with the node's id,
counter `0`. -/
def genInit {R : Type} (seedFrom : Nat → R) (node_id : Nat) : GenState R :=
  ⟨seedFrom sharedCannonSeed, seedFrom node_id, 0⟩

/-- The cannon state after `k` completed iterations. -/
def genRun {R P : Type} (sample : R → P × R) (s : GenState R) : Nat → GenState R
  | 0 => s
  | n + 1 => (genStep sample (genRun sample s n)).2

/-- The payload generated on counter value `k` by the cannon of node
`node_id`. -/
def genOutput {R P : Type} (sample : R → P × R) (seedFrom : Nat → R)
    (node_id k : Nat) : P :=
  (genStep sample (genRun (P := P) sample (genInit seedFrom node_id) k)).1

/-- An RNG state advanced by `n` sampling steps. -/
def rngAdvance {R P : Type} (sample : R → P × R) (r : R) : Nat → R
  | 0 => r
  | n + 1 => (sample (rngAdvance (P := P) sample r n)).2

/-- The `n`-th draw (0-indexed) from an RNG stream. -/
def nthDraw {R P : Type} (sample : R → P × R) (r : R) (n : Nat) : P :=
  (sample (rngAdvance (P := P) sample r n)).1

/-- The observable events of one cannon iteration, in program order
(`simple_node.rs:273-288`): create a fresh oneshot channel, send the
`(id, payload, callback)` tuple into the primary's channel, and await the
callback before the iteration ends.  Channels are identified by the
iteration counter, which makes each one fresh. -/
inductive CannonEvent
  | newChannel (k : Nat)
  | send (k : Nat)
  | awaitCallback (k : Nat)
deriving DecidableEq, Repr

/-- The events of the cannon iteration with counter `k`. -/
def cannonIteration (k : Nat) : List CannonEvent :=
  [CannonEvent.newChannel k, CannonEvent.send k, CannonEvent.awaitCallback k]

/-- The event trace of the first `n` cannon iterations. -/
def cannonTrace (n : Nat) : List CannonEvent :=
  (List.range n).flatMap cannonIteration

/-- The number of submissions outstanding (sent but not yet completed)
after a sequence of events, starting from `acc` outstanding. -/
def outstandingFrom (acc : Nat) (tr : List CannonEvent) : Nat :=
  tr.foldl
    (fun a e =>
      match e with
      | CannonEvent.send _ => a + 1
      | CannonEvent.awaitCallback _ => a - 1
      | CannonEvent.newChannel _ => a)
    acc

/-- The number of submissions outstanding after a sequence of events. -/
def outstanding (tr : List CannonEvent) : Nat := outstandingFrom 0 tr

/-- The successful-parse content of one line: the id before the first `=`
as a `u16` and the segment between the first and second `=` as a socket
address (anything after a second `=` plays no part). -/
def parseLineOpt (parseAddr : List Char → Option SocketAddr) (line : List Char) :
    Option (Nat × SocketAddr) :=
  (parseU16 (splitEqFirstTwo line).1).bind (fun n =>
    ((splitEqFirstTwo line).2).bind (fun addr =>
      (parseAddr addr).map (fun ip => (n, ip))))

/-- A toy RNG used to witness C5: the state is `(seed, position)` and every
draw returns the state itself. -/
def toySample : Nat × Nat → (Nat × Nat) × (Nat × Nat) :=
  fun r => (r, (r.1, r.2 + 1))

/-- Toy seeding: seed `s` starts the stream at `(s, 0)`. -/
def toySeed : Nat → Nat × Nat := fun s => (s, 0)

/-- A toy socket-address parser used for concrete runs: resolves only the
addresses appearing in the concrete test configurations. -/
def toyParseAddr (s : List Char) : Option SocketAddr :=
  if s = "10.0.0.1:5000".toList then some ⟨"10.0.0.1", 5000⟩
  else if s = "1.2.3.4:80".toList then some ⟨"1.2.3.4", 80⟩
  else none

/-- A fallback node state for total extraction from `Except`. -/
def dummyNode : NodeState :=
  ⟨none, Primary.new ⟨0⟩ (Storage.new ⟨0, []⟩ 0) none none⟩

/-- Extracts the node state of a successful run, defaulting to `dummyNode`. -/
def nodeOr (r : Except String NodeState) : NodeState :=
  match r with
  | Except.ok st => st
  | Except.error _ => dummyNode

/-- First concrete configuration: Narwhal mode, node 0 of 1, no config
file, no cannons. -/
def cfgA : Args := ⟨Mode.Narwhal, 0, 1, none, none, none, none⟩

/-- Second concrete configuration: BFT mode, node 2 of 4, a config file,
and all cannon flags set — every field differs from `cfgA`. -/
def cfgB : Args :=
  ⟨Mode.Bft, 2, 4, some "0=10.0.0.1:5000".toList, some (some 100), some none, some (some 7)⟩

/-! ## Helper lemmas about `initialize_components` -/

lemma foldlM_insert_ok (l : List Nat) (acc : List (Nat × Nat)) :
    l.foldlM
      (fun m i =>
        match Account.new i with
        | Except.error e => Except.error e
        | Except.ok acct => Except.ok (indexMapInsert m acct.address 1000))
      acc
    = Except.ok (l.foldl (fun m i => indexMapInsert m i 1000) acc) := by
  induction l generalizing acc with
  | nil => rfl
  | cons x xs ih =>
    simp only [List.foldlM_cons, List.foldl_cons, Account.new, Account.address]
    exact ih (indexMapInsert acc x 1000)

lemma any_key_eq_false (l : List Nat) (n : Nat) (h : ∀ i ∈ l, i < n) :
    (l.map (fun i => (i, 1000))).any (fun p => p.1 == n) = false := by
  induction l with
  | nil => rfl
  | cons x xs ih =>
    simp only [List.map_cons, List.any_cons]
    have hx : x < n := h x (List.mem_cons_self _ _)
    rw [ih (fun i hi => h i (List.mem_cons_of_mem _ hi))]
    simp [Nat.ne_of_lt hx]

lemma range_map_any_eq_false (n : Nat) :
    ((List.range n).map (fun i => (i, 1000))).any (fun p => p.1 == n) = false :=
  any_key_eq_false (List.range n) n (fun _ hi => List.mem_range.mp hi)

lemma range_foldl_insert (n : Nat) :
    (List.range n).foldl (fun m i => indexMapInsert m i 1000) []
      = (List.range n).map (fun i => (i, 1000)) := by
  induction n with
  | zero => rfl
  | succ k ih =>
    rw [List.range_succ, List.foldl_append, List.map_append, ih]
    simp only [List.foldl_cons, List.foldl_nil, List.map_cons, List.map_nil]
    unfold indexMapInsert
    rw [range_map_any_eq_false k, if_neg (by decide : ¬ false = true)]

lemma buildMembers_ok (n : Nat) :
    buildMembersWith Account.new n
      = Except.ok ((List.range n).map (fun i => (i, 1000))) := by
  unfold buildMembersWith
  rw [foldlM_insert_ok, range_foldl_insert]

lemma members_keys (n : Nat) :
    (((List.range n).map (fun i => (i, 1000))).map Prod.fst) = List.range n := by
  rw [List.map_map]
  exact List.map_id _

lemma members_sum (n : Nat) :
    (((List.range n).map (fun i => (i, 1000))).map Prod.snd).sum = 1000 * n := by
  induction n with
  | zero => rfl
  | succ k ih =>
    rw [List.range_succ, List.map_append, List.map_append, List.sum_append, ih]
    simp only [List.map_cons, List.map_nil, List.sum_cons, List.sum_nil]
    ring

lemma committee_new_ok (n : Nat) (h : 1 ≤ n) :
    Committee.new 1 ((List.range n).map (fun i => (i, 1000)))
      = Except.ok ⟨1, (List.range n).map (fun i => (i, 1000))⟩ := by
  unfold Committee.new
  rw [members_keys, if_pos (List.nodup_range n), members_sum,
    if_neg (by omega : ¬ 1000 * n = 0)]

lemma initialize_components_eq_ok (node_id num_nodes : Nat) (h : node_id < num_nodes) :
    initialize_components node_id num_nodes
      = Except.ok
          (Storage.new ⟨1, (List.range num_nodes).map (fun i => (i, 1000))⟩ MAX_GC_ROUNDS,
           ⟨node_id⟩) := by
  unfold initialize_components initialize_componentsWith
  rw [if_pos h, buildMembers_ok]
  simp only [Account.new]
  rw [committee_new_ok num_nodes (by omega)]

lemma initialize_components_eq_error (node_id num_nodes : Nat) (h : ¬ node_id < num_nodes) :
    initialize_components node_id num_nodes
      = Except.error
          ("Node ID " ++ toString node_id ++ " must be less than " ++ toString num_nodes) := by
  unfold initialize_components initialize_componentsWith
  rw [if_neg h]

lemma start_primary_eq (node_id num_nodes : Nat) (peers : List (Nat × SocketAddr)) :
    start_primary node_id num_nodes peers =
      match initialize_components node_id num_nodes with
      | Except.error e => Except.error e
      | Except.ok (storage, account) =>
        match peersGet peers node_id with
        | some ip => Except.ok (Primary.new account storage (some ip) none)
        | none => Except.ok (Primary.new account storage none (some node_id)) := rfl

lemma start_bft_eq (node_id num_nodes : Nat) (peers : List (Nat × SocketAddr)) :
    start_bft node_id num_nodes peers =
      match initialize_components node_id num_nodes with
      | Except.error e => Except.error e
      | Except.ok (storage, account) =>
        match peersGet peers node_id with
        | some ip => Except.ok (BFT.new account storage (some ip) none)
        | none => Except.ok (BFT.new account storage none (some node_id)) := rfl

/-! ## Claim theorems -/

/-- C1: for every `num_nodes ≥ 1` and every `node_id < num_nodes`,
`initialize_components` succeeds and constructs a committee with id 1
containing exactly `num_nodes` members, each holding stake exactly 1000
(total stake `1000 * num_nodes`), together with a storage whose
garbage-collection window equals `MAX_GC_ROUNDS` and an account derived
deterministically from `node_id`. -/
theorem C1_initialize_components_success (num_nodes node_id : Nat)
    (_h1 : 1 ≤ num_nodes) (h2 : node_id < num_nodes) :
    ∃ storage account,
      initialize_components node_id num_nodes = Except.ok (storage, account) ∧
      storage.committee.id = 1 ∧
      storage.committee.members.length = num_nodes ∧
      (∀ p ∈ storage.committee.members, p.2 = 1000) ∧
      storage.committee.totalStake = 1000 * num_nodes ∧
      storage.maxGcRounds = MAX_GC_ROUNDS ∧
      account = ⟨node_id⟩ := by
  refine ⟨Storage.new ⟨1, (List.range num_nodes).map (fun i => (i, 1000))⟩ MAX_GC_ROUNDS,
    ⟨node_id⟩, initialize_components_eq_ok node_id num_nodes h2, rfl, ?_, ?_, ?_, rfl, rfl⟩
  · simp [Storage.new]
  · intro p hp
    simp only [Storage.new] at hp
    rcases List.mem_map.mp hp with ⟨i, _, rfl⟩
    rfl
  · exact members_sum num_nodes

/-- Witness for C1 at `num_nodes = 4`, `node_id = 0`. -/
theorem C1_witness :
    1 ≤ 4 ∧ 0 < 4 ∧
    (∃ storage account,
      initialize_components 0 4 = Except.ok (storage, account) ∧
      storage.committee.id = 1 ∧
      storage.committee.members.length = 4 ∧
      (∀ p ∈ storage.committee.members, p.2 = 1000) ∧
      storage.committee.totalStake = 1000 * 4 ∧
      storage.maxGcRounds = MAX_GC_ROUNDS ∧
      account = ⟨0⟩) :=
  ⟨by decide, by decide, C1_initialize_components_success 4 0 (by decide) (by decide)⟩

/-- C3: the three inspection handlers of the monitoring server leave the
node's core state (BFT, Primary, Storage, all reachable from `NodeState`)
unchanged: each returns the state it was given. -/
theorem C3_handlers_read_only (node : NodeState) (round : Nat) :
    (get_leader node).2 = node ∧
    (get_current_round node).2 = node ∧
    (get_certificates_for_round node round).2 = node :=
  ⟨rfl, rfl, rfl⟩

/-- C9: `initialize_components` — and therefore `start_primary` and
`start_bft` — returns an error if and only if `node_id ≥ num_nodes`, and
in the error case the result is exactly the `ensure!` error (no storage,
committee, or account value is produced). -/
theorem C9_error_iff_invalid_id (node_id num_nodes : Nat)
    (peers : List (Nat × SocketAddr)) :
    ((initialize_components node_id num_nodes).isOk = true ↔ node_id < num_nodes) ∧
    ((start_primary node_id num_nodes peers).isOk = true ↔ node_id < num_nodes) ∧
    ((start_bft node_id num_nodes peers).isOk = true ↔ node_id < num_nodes) ∧
    (num_nodes ≤ node_id →
      initialize_components node_id num_nodes =
        Except.error
          ("Node ID " ++ toString node_id ++ " must be less than " ++ toString num_nodes)) := by
  by_cases h : node_id < num_nodes
  · rw [start_primary_eq, start_bft_eq, initialize_components_eq_ok node_id num_nodes h]
    cases hp : peersGet peers node_id with
    | some ip => simp [Except.isOk, Except.toBool, h]
    | none => simp [Except.isOk, Except.toBool, h]
  · rw [start_primary_eq, start_bft_eq, initialize_components_eq_error node_id num_nodes h]
    simp [Except.isOk, Except.toBool, h]

/-- Witness for C9 at `node_id = 5`, `num_nodes = 3`. -/
theorem C9_witness :
    3 ≤ 5 ∧
    initialize_components 5 3 =
      Except.error ("Node ID " ++ toString 5 ++ " must be less than " ++ toString 3) :=
  ⟨by decide, (C9_error_iff_invalid_id 5 3 []).2.2.2 (by decide)⟩

/-- C4: for every fallible account and committee constructor, if
`initialize_components` fails then the very same error propagates through
`start_primary` / `start_bft` to `main`'s startup, which therefore
terminates with that error and produces no node state (no partially
initialized core). -/
theorem C4_startup_error_propagation
    (accountNew : Nat → Except String Account)
    (committeeNew : Nat → List (Nat × Nat) → Except String Committee)
    (node_id num_nodes : Nat) (peers : List (Nat × SocketAddr)) (mode : Mode)
    (fs ft ftx : Option (Option Nat)) (e : String)
    (h : initialize_componentsWith accountNew committeeNew node_id num_nodes
          = Except.error e) :
    start_bftWith accountNew committeeNew node_id num_nodes peers = Except.error e ∧
    start_primaryWith accountNew committeeNew node_id num_nodes peers = Except.error e ∧
    mainStartupWith accountNew committeeNew mode node_id num_nodes peers
      = Except.error e ∧
    fullMainWith accountNew committeeNew (fun _ => none)
        ⟨mode, node_id, num_nodes, none, fs, ft, ftx⟩
      = Except.error e := by
  have hbft : start_bftWith accountNew committeeNew node_id num_nodes peers
      = Except.error e := by
    unfold start_bftWith
    rw [h]
  have hpri : start_primaryWith accountNew committeeNew node_id num_nodes peers
      = Except.error e := by
    unfold start_primaryWith
    rw [h]
  have hmain : ∀ m : Mode, mainStartupWith accountNew committeeNew m node_id num_nodes peers
      = Except.error e := by
    intro m
    cases m with
    | Bft =>
      unfold mainStartupWith
      rw [hbft]
    | Narwhal =>
      unfold mainStartupWith
      rw [hpri]
  have hfull : fullMainWith accountNew committeeNew (fun _ => none)
      ⟨mode, node_id, num_nodes, none, fs, ft, ftx⟩ = Except.error e := by
    unfold fullMainWith
    have h2 : mainStartupWith accountNew committeeNew mode node_id num_nodes []
        = Except.error e := by
      cases mode with
      | Bft =>
        unfold mainStartupWith start_bftWith
        rw [h]
      | Narwhal =>
        unfold mainStartupWith start_primaryWith
        rw [h]
    exact h2
  exact ⟨hbft, hpri, hmain mode, hfull⟩

/-- Witness for C4: a committee constructor that always reports a fatal
configuration error (as for zero total stake), at `node_id = 0`,
`num_nodes = 4`, in BFT mode. -/
theorem C4_witness :
    initialize_componentsWith Account.new (fun _ _ => Except.error "zero total stake") 0 4
      = Except.error "zero total stake" ∧
    fullMainWith Account.new (fun _ _ => Except.error "zero total stake") (fun _ => none)
        ⟨Mode.Bft, 0, 4, none, none, none, none⟩
      = Except.error "zero total stake" :=
  ⟨rfl,
   (C4_startup_error_propagation Account.new (fun _ _ => Except.error "zero total stake")
      0 4 [] Mode.Bft none none none "zero total stake" rfl).2.2.2⟩

/-- C10: for every successful startup, the `/leader` handler returns an
error response exactly when the node holds no BFT instance, which is the
case if and only if the node was started in `Narwhal` mode; in `Bft` mode
it returns the BFT's leader-of-previous-round value. -/
theorem C10_leader_error_iff_narwhal (mode : Mode) (node_id num_nodes : Nat)
    (peers : List (Nat × SocketAddr)) (st : NodeState)
    (h : mainStartup mode node_id num_nodes peers = Except.ok st) :
    ((get_leader st).1.isOk = false ↔ st.bft = none) ∧
    (st.bft = none ↔ mode = Mode.Narwhal) ∧
    (∀ bft, st.bft = some bft →
      (get_leader st).1 = Except.ok (Resp.leaderResp bft.leader)) := by
  refine ⟨?_, ?_, ?_⟩
  · cases hb : st.bft with
    | some bft => simp [get_leader, hb, Except.isOk, Except.toBool]
    | none => simp [get_leader, hb, Except.isOk, Except.toBool]
  · cases mode with
    | Bft =>
      simp only [mainStartup, mainStartupWith] at h
      cases hs : start_bftWith Account.new Committee.new node_id num_nodes peers with
      | error e => rw [hs] at h; exact absurd h (by simp)
      | ok bft =>
        rw [hs] at h
        have : st = ⟨some bft, bft.primary⟩ := by
          injection h with h2
          exact h2.symm
        rw [this]
        simp
    | Narwhal =>
      simp only [mainStartup, mainStartupWith] at h
      cases hs : start_primaryWith Account.new Committee.new node_id num_nodes peers with
      | error e => rw [hs] at h; exact absurd h (by simp)
      | ok primary =>
        rw [hs] at h
        have : st = ⟨none, primary⟩ := by
          injection h with h2
          exact h2.symm
        rw [this]
        simp
  · intro bft hb
    simp [get_leader, hb]

/-- Witness for C10: a concrete Narwhal-mode startup with one node. -/
theorem C10_witness :
    mainStartup Mode.Narwhal 0 1 []
      = Except.ok
          ⟨none,
           Primary.new ⟨0⟩ (Storage.new ⟨1, [(0, 1000)]⟩ MAX_GC_ROUNDS) none (some 0)⟩ ∧
    ((get_leader
        ⟨none,
         Primary.new ⟨0⟩ (Storage.new ⟨1, [(0, 1000)]⟩ MAX_GC_ROUNDS) none (some 0)⟩).1.isOk
        = false
      ↔ (⟨none,
          Primary.new ⟨0⟩ (Storage.new ⟨1, [(0, 1000)]⟩ MAX_GC_ROUNDS) none
            (some 0)⟩ : NodeState).bft = none) :=
  ⟨rfl,
   (C10_leader_error_iff_narwhal Mode.Narwhal 0 1 []
      ⟨none, Primary.new ⟨0⟩ (Storage.new ⟨1, [(0, 1000)]⟩ MAX_GC_ROUNDS) none (some 0)⟩
      rfl).1⟩

/-! ## C2: the GC window is a fixed constant, not configuration -/

lemma initialize_components_gc (node_id num_nodes : Nat) (s : Storage) (a : Account)
    (h : initialize_components node_id num_nodes = Except.ok (s, a)) :
    s.maxGcRounds = MAX_GC_ROUNDS := by
  by_cases hlt : node_id < num_nodes
  · rw [initialize_components_eq_ok node_id num_nodes hlt] at h
    injection h with h2
    have hs : s = Storage.new ⟨1, (List.range num_nodes).map (fun i => (i, 1000))⟩
        MAX_GC_ROUNDS := (congrArg Prod.fst h2).symm
    rw [hs]
    rfl
  · rw [initialize_components_eq_error node_id num_nodes hlt] at h
    exact absurd h (by simp)

lemma mainStartup_gc (mode : Mode) (node_id num_nodes : Nat)
    (peers : List (Nat × SocketAddr)) (st : NodeState)
    (h : mainStartup mode node_id num_nodes peers = Except.ok st) :
    st.primary.storage.maxGcRounds = MAX_GC_ROUNDS := by
  cases mode with
  | Bft =>
    simp only [mainStartup, mainStartupWith] at h
    rw [show start_bftWith Account.new Committee.new node_id num_nodes peers =
        start_bft node_id num_nodes peers from rfl, start_bft_eq] at h
    cases hi : initialize_components node_id num_nodes with
    | error e => rw [hi] at h; exact absurd h (by simp)
    | ok sa =>
      rw [hi] at h
      have hgc := initialize_components_gc node_id num_nodes sa.1 sa.2 (by rw [hi])
      cases hp : peersGet peers node_id with
      | some ip =>
        rw [hp] at h
        have : st = ⟨some (BFT.new sa.2 sa.1 (some ip) none), (BFT.new sa.2 sa.1 (some ip) none).primary⟩ := by
          injection h with h2
          exact h2.symm
        rw [this]
        exact hgc
      | none =>
        rw [hp] at h
        have : st = ⟨some (BFT.new sa.2 sa.1 none (some node_id)), (BFT.new sa.2 sa.1 none (some node_id)).primary⟩ := by
          injection h with h2
          exact h2.symm
        rw [this]
        exact hgc
  | Narwhal =>
    simp only [mainStartup, mainStartupWith] at h
    rw [show start_primaryWith Account.new Committee.new node_id num_nodes peers =
        start_primary node_id num_nodes peers from rfl, start_primary_eq] at h
    cases hi : initialize_components node_id num_nodes with
    | error e => rw [hi] at h; exact absurd h (by simp)
    | ok sa =>
      rw [hi] at h
      have hgc := initialize_components_gc node_id num_nodes sa.1 sa.2 (by rw [hi])
      cases hp : peersGet peers node_id with
      | some ip =>
        rw [hp] at h
        have : st = ⟨none, Primary.new sa.2 sa.1 (some ip) none⟩ := by
          injection h with h2
          exact h2.symm
        rw [this]
        exact hgc
      | none =>
        rw [hp] at h
        have : st = ⟨none, Primary.new sa.2 sa.1 none (some node_id)⟩ := by
          injection h with h2
          exact h2.symm
        rw [this]
        exact hgc

/-- C2 (amended): for every run of the node program that reaches the running
state, the GC window of the constructed storage is the fixed program
constant `MAX_GC_ROUNDS`, independent of the entire startup configuration
(`Args` has no GC-window field). -/
theorem C2_gc_window_is_program_constant (parseAddr : List Char → Option SocketAddr)
    (args : Args) (st : NodeState)
    (h : fullMain parseAddr args = Except.ok st) :
    st.primary.storage.maxGcRounds = MAX_GC_ROUNDS := by
  unfold fullMain fullMainWith at h
  cases hc : (match args.config with
              | some contents => parse_peersWith parseAddr contents
              | none => Except.ok ([] : List (Nat × SocketAddr))) with
  | error e => rw [hc] at h; exact absurd h (by simp)
  | ok peers =>
    rw [hc] at h
    exact mainStartup_gc args.mode args.id args.num_nodes peers st h

/-- Witness for C2 (amended) at the concrete configuration `cfgA`. -/
theorem C2_witness :
    fullMain toyParseAddr cfgA = Except.ok (nodeOr (fullMain toyParseAddr cfgA)) ∧
    (nodeOr (fullMain toyParseAddr cfgA)).primary.storage.maxGcRounds = MAX_GC_ROUNDS :=
  ⟨rfl,
   C2_gc_window_is_program_constant toyParseAddr cfgA
     (nodeOr (fullMain toyParseAddr cfgA)) rfl⟩

/-- Counterexample to C2 as stated: two runs whose external startup
configurations differ in every field still construct their storage with
the same GC window, the program constant `MAX_GC_ROUNDS` — the GC window
is not taken from the startup configuration. -/
theorem C2_counterexample :
    cfgA ≠ cfgB ∧
    (fullMain toyParseAddr cfgA).isOk = true ∧
    (fullMain toyParseAddr cfgB).isOk = true ∧
    (nodeOr (fullMain toyParseAddr cfgA)).primary.storage.maxGcRounds = MAX_GC_ROUNDS ∧
    (nodeOr (fullMain toyParseAddr cfgB)).primary.storage.maxGcRounds = MAX_GC_ROUNDS := by
  refine ⟨by decide, rfl, rfl, rfl, rfl⟩

/-! ## C6: the connection keeper -/

lemma mem_keepConnectionsPass (peers : List (Nat × SocketAddr)) (node_id num_nodes : Nat)
    (isConnected : SocketAddr → Bool) (i : Nat) (ip : SocketAddr) :
    (i, ip) ∈ keepConnectionsPass peers node_id num_nodes isConnected ↔
      (i < num_nodes ∧ i ≠ node_id ∧ isConnected (ipFor peers i) = false ∧
        ip = ipFor peers i) := by
  unfold keepConnectionsPass
  constructor
  · intro hmem
    rcases List.mem_filterMap.mp hmem with ⟨a, ha, hfa⟩
    by_cases hc : a ≠ node_id ∧ isConnected (ipFor peers a) = false
    · rw [if_pos hc] at hfa
      have h1 : a = i ∧ ipFor peers a = ip := by
        injection hfa with h2
        exact ⟨congrArg Prod.fst h2, congrArg Prod.snd h2⟩
      rcases h1 with ⟨rfl, h3⟩
      exact ⟨List.mem_range.mp ha, hc.1, hc.2, h3.symm⟩
    · rw [if_neg hc] at hfa
      exact absurd hfa (by simp)
  · rintro ⟨h1, h2, h3, rfl⟩
    exact List.mem_filterMap.mpr
      ⟨i, List.mem_range.mpr h1, by rw [if_pos ⟨h2, h3⟩]⟩

/-- C6 (amended): on iteration `t` of the connection-keeper loop, `connect`
is called for index `i` (on the address `ipFor peers i`) if and only if
`i` is in range, differs from the node's own id, and `is_connected` is
false for that address at that moment; in particular it never connects at
its own index, and the loop repeats at a fixed 30-second interval.
(It can still dial its own address when the peers file maps another index
to it — see the counterexample.) -/
theorem C6_connect_iff (peers : List (Nat × SocketAddr)) (node_id num_nodes : Nat)
    (isConnectedAt : Nat → SocketAddr → Bool) (t i : Nat) (ip : SocketAddr) :
    ((i, ip) ∈ keepConnectionsIter peers node_id num_nodes isConnectedAt t ↔
      (i < num_nodes ∧ i ≠ node_id ∧ isConnectedAt t (ipFor peers i) = false ∧
        ip = ipFor peers i)) ∧
    (∀ ip2, (node_id, ip2) ∉ keepConnectionsIter peers node_id num_nodes isConnectedAt t) ∧
    keepConnectionsIntervalSecs = 30 := by
  refine ⟨mem_keepConnectionsPass peers node_id num_nodes (isConnectedAt t) i ip, ?_, rfl⟩
  intro ip2 hmem
  exact ((mem_keepConnectionsPass peers node_id num_nodes (isConnectedAt t)
    node_id ip2).mp hmem).2.1 rfl

/-- Witness for C6 (amended) at a concrete configuration: index 1 is
dialled, the node's own index 0 is not. -/
theorem C6_witness :
    ((1, ipFor [] 1) ∈ keepConnectionsIter [] 0 2 (fun _ _ => false) 0 ↔
      (1 < 2 ∧ 1 ≠ 0 ∧ (fun _ _ => false) 0 (ipFor [] 1) = false ∧
        ipFor [] 1 = ipFor [] 1)) ∧
    (0, ipFor [] 0) ∉ keepConnectionsIter [] 0 2 (fun _ _ => false) 0 :=
  ⟨(C6_connect_iff [] 0 2 (fun _ _ => false) 0 1 (ipFor [] 1)).1,
   (C6_connect_iff [] 0 2 (fun _ _ => false) 0 0 (ipFor [] 0)).2.1 (ipFor [] 0)⟩

/-- Counterexample to C6 as stated: when the peers file maps index 1 to the
same address that index 0 (the node itself) uses as its gateway address,
node 0's connection keeper does call `connect` on its own address — the
guard is on the index, not the address. -/
theorem C6_counterexample :
    peersGet [(0, ⟨"192.168.1.176", 5000⟩), (1, ⟨"192.168.1.176", 5000⟩)] 0
      = some ⟨"192.168.1.176", 5000⟩ ∧
    start_primary 0 2 [(0, ⟨"192.168.1.176", 5000⟩), (1, ⟨"192.168.1.176", 5000⟩)]
      = Except.ok
          (Primary.new ⟨0⟩
            (Storage.new ⟨1, [(0, 1000), (1, 1000)]⟩ MAX_GC_ROUNDS)
            (some ⟨"192.168.1.176", 5000⟩) none) ∧
    (1, (⟨"192.168.1.176", 5000⟩ : SocketAddr)) ∈
      keepConnectionsIter [(0, ⟨"192.168.1.176", 5000⟩), (1, ⟨"192.168.1.176", 5000⟩)]
        0 2 (fun _ _ => false) 0 :=
  ⟨rfl, rfl, by decide⟩

/-! ## C7: the cannon loop has at most one submission outstanding -/

lemma cannonTrace_succ (n : Nat) :
    cannonTrace (n + 1) = cannonTrace n ++ cannonIteration n := by
  unfold cannonTrace
  rw [List.range_succ, List.flatMap_append]
  simp

lemma outstandingFrom_append (acc : Nat) (a b : List CannonEvent) :
    outstandingFrom acc (a ++ b) = outstandingFrom (outstandingFrom acc a) b := by
  unfold outstandingFrom
  rw [List.foldl_append]

lemma outstandingFrom_iteration (acc k : Nat) :
    outstandingFrom acc (cannonIteration k) = acc := by
  simp [outstandingFrom, cannonIteration]

lemma outstandingFrom_trace (acc n : Nat) :
    outstandingFrom acc (cannonTrace n) = acc := by
  induction n with
  | zero => rfl
  | succ k ih =>
    rw [cannonTrace_succ, outstandingFrom_append, ih, outstandingFrom_iteration]

lemma cannonTrace_length (n : Nat) : (cannonTrace n).length = 3 * n := by
  induction n with
  | zero => rfl
  | succ k ih =>
    rw [cannonTrace_succ, List.length_append, ih]
    simp [cannonIteration]
    ring

lemma cannonIteration_count (j k : Nat) :
    (cannonIteration j).count (CannonEvent.newChannel k) = if k = j then 1 else 0 := by
  by_cases h : k = j
  · subst h
    simp [cannonIteration]
  · simp [cannonIteration, List.count_cons]
    rw [if_neg (fun h2 => h h2.symm), if_neg h]

lemma cannonTrace_count (n k : Nat) :
    (cannonTrace n).count (CannonEvent.newChannel k) = if k < n then 1 else 0 := by
  induction n with
  | zero => simp [cannonTrace]
  | succ j ih =>
    rw [cannonTrace_succ, List.count_append, ih, cannonIteration_count]
    by_cases h1 : k < j
    · rw [if_pos h1, if_neg (by omega : ¬ k = j), if_pos (by omega)]
    · by_cases h2 : k = j
      · rw [if_neg h1, if_pos h2, if_pos (by omega)]
      · rw [if_neg h1, if_neg h2, if_neg (by omega)]

lemma outstanding_take_iteration (r k : Nat) :
    outstandingFrom 0 ((cannonIteration k).take r) ≤ 1 := by
  match r with
  | 0 => simp [outstandingFrom, cannonIteration]
  | 1 => simp [outstandingFrom, cannonIteration]
  | 2 => simp [outstandingFrom, cannonIteration]
  | r2 + 3 => simp [outstandingFrom, cannonIteration, List.take_succ_cons]

lemma outstanding_take_trace (n m : Nat) :
    outstanding ((cannonTrace n).take m) ≤ 1 := by
  induction n with
  | zero => simp [cannonTrace, outstanding, outstandingFrom]
  | succ j ih =>
    rw [cannonTrace_succ]
    unfold outstanding
    rw [List.take_append_eq_append_take, outstandingFrom_append]
    by_cases h : m ≤ (cannonTrace j).length
    · rw [Nat.sub_eq_zero_of_le h]
      simp only [List.take_zero]
      exact ih
    · rw [List.take_of_length_le (by omega)]
      rw [outstandingFrom_trace]
      exact outstanding_take_iteration _ _

/-- C7: the cannon loop creates one fresh completion channel per iteration
(each channel id occurs exactly once in the trace), each iteration sends
and then awaits the callback before the next iteration begins, and as a
consequence at most one submission is outstanding at every prefix of the
trace. -/
theorem C7_cannon_at_most_one_outstanding (n m k : Nat) :
    cannonTrace (n + 1) = cannonTrace n
        ++ [CannonEvent.newChannel n, CannonEvent.send n, CannonEvent.awaitCallback n] ∧
    (cannonTrace n).count (CannonEvent.newChannel k) = (if k < n then 1 else 0) ∧
    outstanding ((cannonTrace n).take m) ≤ 1 :=
  ⟨cannonTrace_succ n, cannonTrace_count n k, outstanding_take_trace n m⟩

/-! ## C5: shared versus per-node RNG selection in the cannon loops -/

lemma genRun_closed {R P : Type} (sample : R → P × R) (seedFrom : Nat → R)
    (node_id k : Nat) :
    genRun (P := P) sample (genInit seedFrom node_id) k =
      ⟨rngAdvance sample (seedFrom sharedCannonSeed) ((k + 1) / 2),
       rngAdvance sample (seedFrom node_id) (k / 2), k⟩ := by
  induction k with
  | zero => rfl
  | succ j ih =>
    show (genStep sample (genRun (P := P) sample (genInit seedFrom node_id) j)).2 = _
    rw [ih]
    unfold genStep
    by_cases hj : j % 2 = 0
    · rw [if_pos hj]
      have h1 : (j + 1 + 1) / 2 = (j + 1) / 2 + 1 := by omega
      have h2 : (j + 1) / 2 = j / 2 := by omega
      rw [h1, h2]
      rfl
    · rw [if_neg hj]
      have h1 : (j + 1) / 2 = j / 2 + 1 := by omega
      have h2 : (j + 1 + 1) / 2 = (j + 1) / 2 := by omega
      rw [h2, h1]
      rfl

lemma genOutput_closed {R P : Type} (sample : R → P × R) (seedFrom : Nat → R)
    (node_id k : Nat) :
    genOutput sample seedFrom node_id k =
      if k % 2 = 0 then nthDraw sample (seedFrom sharedCannonSeed) (k / 2)
      else nthDraw sample (seedFrom node_id) (k / 2) := by
  unfold genOutput
  rw [genRun_closed]
  unfold genStep nthDraw
  by_cases hk : k % 2 = 0
  · rw [if_pos hk, if_pos hk]
    have h1 : (k + 1) / 2 = k / 2 := by omega
    rw [h1]
  · rw [if_neg hk, if_neg hk]

/-- C5: for every RNG model, node ids, and counter value `k`, the `k`-th
fake payload of the cannon loop is the `(k/2)`-th draw from the RNG seeded
with the shared constant `123456789` if and only if `k` is even, and from
the RNG seeded with the node's own id otherwise; hence even-indexed
submissions coincide across any two nodes, and odd-indexed submissions
differ whenever draws from distinct seeds differ. -/
theorem C5_cannon_rng_selection {R P : Type} (sample : R → P × R)
    (seedFrom : Nat → R) (i j k : Nat) :
    (genOutput sample seedFrom i k =
      if k % 2 = 0 then nthDraw sample (seedFrom sharedCannonSeed) (k / 2)
      else nthDraw sample (seedFrom i) (k / 2)) ∧
    (k % 2 = 0 → genOutput sample seedFrom i k = genOutput sample seedFrom j k) ∧
    (k % 2 = 1 → i ≠ j →
      (∀ a b n, a ≠ b →
        nthDraw sample (seedFrom a) n ≠ nthDraw sample (seedFrom b) n) →
      genOutput sample seedFrom i k ≠ genOutput sample seedFrom j k) := by
  refine ⟨genOutput_closed sample seedFrom i k, ?_, ?_⟩
  · intro hk
    rw [genOutput_closed, genOutput_closed, if_pos hk, if_pos hk]
  · intro hk hij hinj
    rw [genOutput_closed, genOutput_closed,
      if_neg (by omega : ¬ k % 2 = 0), if_neg (by omega : ¬ k % 2 = 0)]
    exact hinj i j (k / 2) hij

lemma toySample_advance (a n : Nat) :
    rngAdvance toySample (toySeed a) n = (a, n) := by
  induction n with
  | zero => rfl
  | succ m ih =>
    show (toySample (rngAdvance toySample (toySeed a) m)).2 = _
    rw [ih]
    rfl

lemma toySample_draws_distinct (a b n : Nat) (h : a ≠ b) :
    nthDraw toySample (toySeed a) n ≠ nthDraw toySample (toySeed b) n := by
  unfold nthDraw
  rw [toySample_advance, toySample_advance]
  intro hcontra
  have h2 : (a, n) = (b, n) := hcontra
  exact h (congrArg Prod.fst h2)

/-- Witness for C5 at the toy RNG, nodes 0 and 1, counter 1 (odd): the
odd-indexed submissions differ. -/
theorem C5_witness :
    (1 : Nat) % 2 = 1 ∧ (0 : Nat) ≠ 1 ∧
    genOutput toySample toySeed 0 1 ≠ genOutput toySample toySeed 1 1 :=
  ⟨rfl, by decide,
   (C5_cannon_rng_selection toySample toySeed 0 1 1).2.2 rfl (by decide)
     (fun a b n h => toySample_draws_distinct a b n h)⟩

/-! ## C8: `parse_peers` -/

lemma parsePeerLine_of_some (pa : List Char → Option SocketAddr)
    (acc : List (Nat × SocketAddr)) (line : List Char) (k : Nat) (v : SocketAddr)
    (h : parseLineOpt pa line = some (k, v)) :
    parsePeerLine pa acc line = Except.ok (hashMapInsert acc k v) := by
  unfold parseLineOpt at h
  unfold parsePeerLine
  split
  next heq =>
    rw [heq] at h
    exact Option.noConfusion (show (none : Option (Nat × SocketAddr)) = some (k, v) from h)
  next n heq =>
    rw [heq] at h
    have h2 : ((splitEqFirstTwo line).2).bind
        (fun addr => (pa addr).map (fun ip => (n, ip))) = some (k, v) := h
    split
    next heq2 =>
      rw [heq2] at h2
      exact Option.noConfusion
        (show (none : Option (Nat × SocketAddr)) = some (k, v) from h2)
    next addr heq2 =>
      rw [heq2] at h2
      have h3 : (pa addr).map (fun ip => (n, ip)) = some (k, v) := h2
      split
      next heq3 =>
        rw [heq3] at h3
        exact Option.noConfusion
          (show (none : Option (Nat × SocketAddr)) = some (k, v) from h3)
      next ip heq3 =>
        rw [heq3] at h3
        have h4 : (n, ip) = (k, v) := Option.some.inj h3
        rw [show n = k from congrArg Prod.fst h4, show ip = v from congrArg Prod.snd h4]

lemma parsePeerLine_of_none (pa : List Char → Option SocketAddr)
    (acc : List (Nat × SocketAddr)) (line : List Char)
    (h : parseLineOpt pa line = none) :
    (parsePeerLine pa acc line).isOk = false := by
  unfold parseLineOpt at h
  unfold parsePeerLine
  split
  next heq => rfl
  next n heq =>
    rw [heq] at h
    have h2 : ((splitEqFirstTwo line).2).bind
        (fun addr => (pa addr).map (fun ip => (n, ip))) = none := h
    split
    next heq2 => rfl
    next addr heq2 =>
      rw [heq2] at h2
      have h3 : (pa addr).map (fun ip => (n, ip)) = none := h2
      split
      next heq3 => rfl
      next ip heq3 =>
        rw [heq3] at h3
        exact Option.noConfusion (show some (n, ip) = none from h3)

lemma parsePeersLoop_ok (pa : List Char → Option SocketAddr)
    (lines : List (List Char)) :
    ∀ acc entries, lines.mapM (parseLineOpt pa) = some entries →
      parsePeersLoop pa acc lines
        = Except.ok (entries.foldl (fun m p => hashMapInsert m p.1 p.2) acc) := by
  induction lines with
  | nil =>
    intro acc entries h
    rw [List.mapM_nil] at h
    have h2 : ([] : List (Nat × SocketAddr)) = entries := Option.some.inj h
    rw [← h2]
    rfl
  | cons l ls ih =>
    intro acc entries h
    rw [List.mapM_cons] at h
    cases hl : parseLineOpt pa l with
    | none =>
      rw [hl] at h
      exact Option.noConfusion
        (show (none : Option (List (Nat × SocketAddr))) = some entries from h)
    | some kv =>
      rw [hl] at h
      cases hls : ls.mapM (parseLineOpt pa) with
      | none =>
        rw [hls] at h
        exact Option.noConfusion
          (show (none : Option (List (Nat × SocketAddr))) = some entries from h)
      | some es =>
        rw [hls] at h
        have h2 : kv :: es = entries := Option.some.inj h
        unfold parsePeersLoop
        rw [parsePeerLine_of_some pa acc l kv.1 kv.2 (by rw [hl]), ← h2]
        show parsePeersLoop pa (hashMapInsert acc kv.1 kv.2) ls
          = Except.ok ((kv :: es).foldl (fun m p => hashMapInsert m p.1 p.2) acc)
        rw [List.foldl_cons]
        exact ih (hashMapInsert acc kv.1 kv.2) es hls

lemma parsePeersLoop_err (pa : List Char → Option SocketAddr)
    (lines : List (List Char)) :
    ∀ acc, lines.mapM (parseLineOpt pa) = none →
      (parsePeersLoop pa acc lines).isOk = false := by
  induction lines with
  | nil =>
    intro acc h
    rw [List.mapM_nil] at h
    exact Option.noConfusion (show some ([] : List (Nat × SocketAddr)) = none from h)
  | cons l ls ih =>
    intro acc h
    rw [List.mapM_cons] at h
    cases hl : parseLineOpt pa l with
    | none =>
      have herr := parsePeerLine_of_none pa acc l hl
      unfold parsePeersLoop
      cases hres : parsePeerLine pa acc l with
      | error e => rfl
      | ok peers2 => rw [hres] at herr; simp [Except.isOk, Except.toBool] at herr
    | some kv =>
      rw [hl] at h
      have hls : ls.mapM (parseLineOpt pa) = none := by
        cases hls2 : ls.mapM (parseLineOpt pa) with
        | none => rfl
        | some es =>
          rw [hls2] at h
          exact Option.noConfusion (show some (kv :: es) = none from h)
      unfold parsePeersLoop
      rw [parsePeerLine_of_some pa acc l kv.1 kv.2 (by rw [hl])]
      exact ih (hashMapInsert acc kv.1 kv.2) hls

lemma find_key_cons_true (a : Nat × SocketAddr) (l : List (Nat × SocketAddr))
    (k : Nat) (h : (a.1 == k) = true) :
    (a :: l).find? (fun p => p.1 == k) = some a := by
  have hstep : (a :: l).find? (fun p => p.1 == k)
      = match a.1 == k with
        | true => some a
        | false => l.find? (fun p => p.1 == k) := rfl
  rw [hstep, h]

lemma find_key_cons_false (a : Nat × SocketAddr) (l : List (Nat × SocketAddr))
    (k : Nat) (h : (a.1 == k) = false) :
    (a :: l).find? (fun p => p.1 == k) = l.find? (fun p => p.1 == k) := by
  have hstep : (a :: l).find? (fun p => p.1 == k)
      = match a.1 == k with
        | true => some a
        | false => l.find? (fun p => p.1 == k) := rfl
  rw [hstep, h]

lemma find_map_replace (k : Nat) (v : SocketAddr) :
    ∀ m : List (Nat × SocketAddr), m.any (fun p => p.1 == k) = true →
      (m.map (fun p => if p.1 == k then (k, v) else p)).find? (fun p => p.1 == k)
        = some (k, v) := by
  intro m
  induction m with
  | nil => intro h; simp at h
  | cons a as ih =>
    intro h
    by_cases ha : (a.1 == k) = true
    · have hred : (a :: as).map (fun p => if p.1 == k then (k, v) else p)
          = (k, v) :: as.map (fun p => if p.1 == k then (k, v) else p) := by
        rw [List.map_cons, if_pos ha]
      rw [hred]
      exact find_key_cons_true (k, v) _ k (by simp)
    · have hf : (a.1 == k) = false := Bool.eq_false_iff.mpr ha
      have hred : (a :: as).map (fun p => if p.1 == k then (k, v) else p)
          = a :: as.map (fun p => if p.1 == k then (k, v) else p) := by
        rw [List.map_cons, if_neg ha]
      rw [hred, find_key_cons_false a _ k hf]
      apply ih
      simp only [List.any_cons, hf, Bool.false_or] at h
      exact h

lemma find_append_single (k : Nat) (v : SocketAddr) :
    ∀ m : List (Nat × SocketAddr), m.any (fun p => p.1 == k) = false →
      (m ++ [(k, v)]).find? (fun p => p.1 == k) = some (k, v) := by
  intro m
  induction m with
  | nil =>
    intro h
    rw [List.nil_append]
    exact find_key_cons_true (k, v) _ k (by simp)
  | cons a as ih =>
    intro h
    have hf : (a.1 == k) = false := by
      by_cases hb : (a.1 == k) = true
      · simp only [List.any_cons, hb, Bool.true_or] at h
        exact Bool.noConfusion h
      · exact Bool.eq_false_iff.mpr hb
    have has : as.any (fun p => p.1 == k) = false := by
      simp only [List.any_cons, hf, Bool.false_or] at h
      exact h
    rw [List.cons_append, find_key_cons_false a _ k hf]
    exact ih has

lemma find_map_preserve (k k2 : Nat) (v : SocketAddr) (hkk : (k == k2) = false) :
    ∀ m : List (Nat × SocketAddr),
      (m.map (fun p => if p.1 == k then (k, v) else p)).find? (fun p => p.1 == k2)
        = m.find? (fun p => p.1 == k2) := by
  intro m
  induction m with
  | nil => rfl
  | cons a as ih =>
    by_cases ha : (a.1 == k) = true
    · have he : a.1 = k := by simpa using ha
      have ha2 : (a.1 == k2) = false := by rw [he]; exact hkk
      have hred : (a :: as).map (fun p => if p.1 == k then (k, v) else p)
          = (k, v) :: as.map (fun p => if p.1 == k then (k, v) else p) := by
        rw [List.map_cons, if_pos ha]
      rw [hred, find_key_cons_false (k, v) _ k2 (by simpa using hkk),
        find_key_cons_false a _ k2 ha2]
      exact ih
    · have hred : (a :: as).map (fun p => if p.1 == k then (k, v) else p)
          = a :: as.map (fun p => if p.1 == k then (k, v) else p) := by
        rw [List.map_cons, if_neg ha]
      by_cases ha2 : (a.1 == k2) = true
      · rw [hred, find_key_cons_true a _ k2 ha2, find_key_cons_true a _ k2 ha2]
      · have hf2 : (a.1 == k2) = false := Bool.eq_false_iff.mpr ha2
        rw [hred, find_key_cons_false a _ k2 hf2, find_key_cons_false a _ k2 hf2]
        exact ih

lemma find_append_single_ne (k k2 : Nat) (v : SocketAddr) (hkk : (k == k2) = false) :
    ∀ m : List (Nat × SocketAddr),
      (m ++ [(k, v)]).find? (fun p => p.1 == k2) = m.find? (fun p => p.1 == k2) := by
  intro m
  induction m with
  | nil =>
    rw [List.nil_append, find_key_cons_false (k, v) _ k2 (by simpa using hkk)]
  | cons a as ih =>
    by_cases ha2 : (a.1 == k2) = true
    · rw [List.cons_append, find_key_cons_true a _ k2 ha2,
        find_key_cons_true a _ k2 ha2]
    · have hf2 : (a.1 == k2) = false := Bool.eq_false_iff.mpr ha2
      rw [List.cons_append, find_key_cons_false a _ k2 hf2,
        find_key_cons_false a _ k2 hf2]
      exact ih

lemma peersGet_insert_self (m : List (Nat × SocketAddr)) (k : Nat) (v : SocketAddr) :
    peersGet (hashMapInsert m k v) k = some v := by
  unfold peersGet hashMapInsert
  by_cases hany : m.any (fun p => p.1 == k) = true
  · rw [if_pos hany, find_map_replace k v m hany]
  · have hf : m.any (fun p => p.1 == k) = false := Bool.eq_false_iff.mpr hany
    rw [if_neg hany, find_append_single k v m hf]

lemma peersGet_insert_ne (m : List (Nat × SocketAddr)) (k : Nat) (v : SocketAddr)
    (k2 : Nat) (h : ¬ k2 = k) :
    peersGet (hashMapInsert m k v) k2 = peersGet m k2 := by
  have hkk : (k == k2) = false := beq_eq_false_iff_ne.mpr (fun he => h he.symm)
  unfold peersGet hashMapInsert
  by_cases hany : m.any (fun p => p.1 == k) = true
  · rw [if_pos hany, find_map_preserve k k2 v hkk m]
  · rw [if_neg hany, find_append_single_ne k k2 v hkk m]

/-- C8 (amended): `parse_peers` splits each line at `=`; it returns `Ok`
with one map entry per line exactly when on every line the first segment
parses as a `u16` and the second as a socket address (any text after a
second `=` is ignored, not an error); it returns `Err` when some line has
no `=` or an unparsable first or second segment; the empty string yields
the empty map; and a later entry for an id already present replaces the
earlier one while leaving other ids unchanged (the last line wins). -/
theorem C8_parse_peers (pa : List Char → Option SocketAddr) (s : List Char) :
    (∀ entries, (rustLines s).mapM (parseLineOpt pa) = some entries →
      parse_peersWith pa s
        = Except.ok (entries.foldl (fun m p => hashMapInsert m p.1 p.2) [])) ∧
    ((rustLines s).mapM (parseLineOpt pa) = none →
      (parse_peersWith pa s).isOk = false) ∧
    parse_peersWith pa [] = Except.ok [] ∧
    (∀ m k v, peersGet (hashMapInsert m k v) k = some v) ∧
    (∀ m k v k2, ¬ k2 = k → peersGet (hashMapInsert m k v) k2 = peersGet m k2) := by
  refine ⟨?_, ?_, rfl, peersGet_insert_self, peersGet_insert_ne⟩
  · intro entries h
    exact parsePeersLoop_ok pa (rustLines s) [] entries h
  · intro h
    exact parsePeersLoop_err pa (rustLines s) [] h

/-- Witness for C8 at a concrete two-line input. -/
theorem C8_witness :
    (rustLines "0=10.0.0.1:5000\n1=1.2.3.4:80".toList).mapM (parseLineOpt toyParseAddr)
      = some [(0, ⟨"10.0.0.1", 5000⟩), (1, ⟨"1.2.3.4", 80⟩)] ∧
    parse_peersWith toyParseAddr "0=10.0.0.1:5000\n1=1.2.3.4:80".toList
      = Except.ok [(0, ⟨"10.0.0.1", 5000⟩), (1, ⟨"1.2.3.4", 80⟩)] :=
  ⟨rfl,
   (C8_parse_peers toyParseAddr "0=10.0.0.1:5000\n1=1.2.3.4:80".toList).1
     [(0, ⟨"10.0.0.1", 5000⟩), (1, ⟨"1.2.3.4", 80⟩)] rfl⟩

/-- Counterexample to C8 as stated: on the line `0=1.2.3.4:80=x` the text
after the first `=` (`1.2.3.4:80=x`) is not a parsable socket address, so
by the claim `parse_peers` should return `Err`; the code instead silently
ignores everything after the second `=` and returns `Ok` with the entry
`0 ↦ 1.2.3.4:80`. -/
theorem C8_counterexample :
    toyParseAddr "1.2.3.4:80=x".toList = none ∧
    parse_peersWith toyParseAddr "0=1.2.3.4:80=x".toList
      = Except.ok [(0, ⟨"1.2.3.4", 80⟩)] :=
  ⟨rfl, rfl⟩

end SimpleNode
